import Mathlib

/-!
Verification development for the invoice extraction service.

The service ingests an uploaded invoice (PDF or raster image), normalizes it
to a single image, sends it to a vision model, sanitizes and parses the
model's raw text response, validates the parsed JSON against a fixed schema
(`InvoiceData` with nested `VendorInfo`, `CustomerInfo`, `InvoiceItem`,
`Summary`), and persists one row coupling the original bytes with the
validated record.  External collaborators (HTTP transport, PIL image
decoding, pdf2image rendering, the JSON parser of the standard library and
the model endpoint) are shallowly embedded as explicit parameters; the
repository's own logic (sanitization, schema validation, dispatch,
persistence and search) is translated faithfully.

Strings are modelled as `List Char`; Python's `str.split`, `str.replace`,
`str.strip`, the `in` operator and `str.isdigit`/`int()` are given explicit
executable definitions matching Python semantics (non-overlapping leftmost
occurrence scanning).
-/

namespace Invoice

/-- Whitespace characters removed by Python's `str.strip()`:
space, tab, newline, carriage return, vertical tab, form feed. -/
def pyIsSpaceChar (c : Char) : Bool :=
  c = ' ' || c = '\t' || c = '\n' || c = '\r' || c = '\x0b' || c = '\x0c'

/-- Python `str.strip()`: drop leading and trailing whitespace. -/
def pyStrip (l : List Char) : List Char :=
  ((l.dropWhile pyIsSpaceChar).reverse.dropWhile pyIsSpaceChar).reverse

/-- Boolean test that `p` is a prefix of `l` (self-contained primitive used
by the occurrence scanner). -/
def isPre (p l : List Char) : Bool :=
  match p, l with
  | [], _ => true
  | _ :: _, [] => false
  | a :: as, b :: bs => a == b && isPre as bs

/-- Index of the first (leftmost) occurrence of `sep` in `l`, if any.
This is the occurrence notion used by Python's `in`, `split` and `replace`. -/
def firstIdx? (sep : List Char) : List Char → Option Nat
  | [] => if isPre sep [] then some 0 else none
  | c :: rest =>
    if isPre sep (c :: rest) then some 0
    else (firstIdx? sep rest).map (· + 1)

/-- Python's substring containment operator `sub in l`. -/
def occursIn (sub l : List Char) : Bool :=
  (firstIdx? sub l).isSome

/-- The suffix of `l` after the first occurrence of `sep`
(meaningful only when `sep` occurs). -/
def afterFirst (sep l : List Char) : List Char :=
  match firstIdx? sep l with
  | none => []
  | some i => l.drop (i + sep.length)

/-- The prefix of `l` before the first occurrence of `sep`
(all of `l` when `sep` does not occur). -/
def cutAtFirst (sep l : List Char) : List Char :=
  match firstIdx? sep l with
  | none => l
  | some i => l.take i

/-- Fuel-driven worker for Python `str.split(sep)`: split at non-overlapping
leftmost occurrences of `sep`.  The fuel strictly exceeds the number of
occurrences whenever it is at least the length of the list and `sep` is
nonempty. -/
def pySplitF (sep : List Char) : Nat → List Char → List (List Char)
  | 0, l => [l]
  | f + 1, l =>
    match firstIdx? sep l with
    | none => [l]
    | some i => l.take i :: pySplitF sep f (l.drop (i + sep.length))

/-- Python `str.split(sep)` for a nonempty separator. -/
def pySplit (sep l : List Char) : List (List Char) :=
  pySplitF sep l.length l

/-- Fuel-driven worker for Python `str.replace(old, new)`. -/
def pyReplaceF (old new : List Char) : Nat → List Char → List Char
  | 0, l => l
  | f + 1, l =>
    match firstIdx? old l with
    | none => l
    | some i => l.take i ++ new ++ pyReplaceF old new f (l.drop (i + old.length))

/-- Python `str.replace(old, new)` for a nonempty pattern. -/
def pyReplace (old new l : List Char) : List Char :=
  pyReplaceF old new l.length l

/-- Concatenation of a list of fragments. -/
def joinParts (parts : List (List Char)) : List Char :=
  parts.foldr (· ++ ·) []

/-- The tagged fence marker of `service.py`. -/
def jsonFence : List Char := "```json".toList

/-- The generic fence marker of `service.py`. -/
def codeFence : List Char := "```".toList

/-- Markdown-fence sanitization of the model response, from
`service.process_invoice_with_vllm`:

    if "```json" in content:
        content = content.split("```json")[1].split("```")[0].strip()
    elif "```" in content:
        content = content.replace("```", "").strip()

When the tagged marker occurs, `split` yields at least two parts, so the
`getD`/`headD` defaults are never consulted. -/
def sanitize (content : List Char) : List Char :=
  if occursIn jsonFence content then
    pyStrip ((pySplit codeFence ((pySplit jsonFence content).getD 1 [])).headD [])
  else if occursIn codeFence content then
    pyStrip (pyReplace codeFence [] content)
  else content

/-- JSON values, the output type of Python's `json.loads` (dictionaries are
association lists with the string keys produced by the parser). -/
inductive Json where
  | null
  | bool (b : Bool)
  | num (n : Int)
  | str (s : String)
  | arr (elems : List Json)
  | obj (fields : List (String × Json))

/-- Dictionary lookup on a parsed JSON object. -/
def jLookup (fields : List (String × Json)) (k : String) : Option Json :=
  match fields with
  | [] => none
  | (k2, v) :: rest => if k2 = k then some v else jLookup rest k

/-- Keys of a JSON object (empty for non-objects). -/
def jKeys : Json → List String
  | .obj fields => fields.map (·.1)
  | _ => []

/-- `schemas.InvoiceItem`: `description` is required, the rest are
`Optional[str] = None`. -/
structure InvoiceItem where
  description : String
  quantity : Option String
  unit_price : Option String
  total_price : Option String

/-- `schemas.VendorInfo`: all fields `Optional[str] = None`. -/
structure VendorInfo where
  name_english : Option String
  name_nepali : Option String
  address : Option String
  phone : Option String
  email : Option String
  vat_number : Option String

/-- `schemas.CustomerInfo`: all fields `Optional[str] = None`. -/
structure CustomerInfo where
  name : Option String
  address : Option String
  vat_number : Option String

/-- `schemas.Summary`: six `Optional[str] = None` fields plus the required
`has_company_stamp`. -/
structure Summary where
  subtotal : Option String
  tax_amount : Option String
  tax_rate_percent : Option String
  discount_amount : Option String
  total_amount_due : Option String
  amount_in_words : Option String
  has_company_stamp : String

/-- `schemas.InvoiceData`: five `Optional[str] = None` fields plus the
required nested models and the required list of line items. -/
structure InvoiceData where
  invoice_number : Option String
  transaction_number : Option String
  reference_number : Option String
  invoice_date_ad : Option String
  invoice_miti_bs : Option String
  vendor_info : VendorInfo
  customer_info : CustomerInfo
  line_items : List InvoiceItem
  summary : Summary

/-- Pydantic validation of one `Optional[str] = None` field value: an absent
key or an explicit `null` yields `None`; a string is accepted; any other
JSON value is a validation error (Pydantic v2 performs no `int`/`bool` to
`str` coercion). -/
def decodeOptStr : Option Json → Option (Option String)
  | none => some none
  | some .null => some none
  | some (.str s) => some (some s)
  | some _ => none

/-- Pydantic validation of a required `str` field value: the key must be
present and hold a string. -/
def decodeReqStr : Option Json → Option String
  | some (.str s) => some s
  | _ => none

/-- Lookup-and-validate for an `Optional[str] = None` field. -/
def getOptStr (fields : List (String × Json)) (k : String) : Option (Option String) :=
  decodeOptStr (jLookup fields k)

/-- Lookup-and-validate for a required `str` field. -/
def getReqStr (fields : List (String × Json)) (k : String) : Option String :=
  decodeReqStr (jLookup fields k)

/-- `VendorInfo.model_validate`: the input must be an object; unknown extra
keys are ignored; each declared field is validated. -/
def validateVendorInfo (j : Json) : Option VendorInfo :=
  match j with
  | .obj fs =>
    match getOptStr fs "name_english", getOptStr fs "name_nepali", getOptStr fs "address",
          getOptStr fs "phone", getOptStr fs "email", getOptStr fs "vat_number" with
    | some a, some b, some c, some d, some e, some f => some ⟨a, b, c, d, e, f⟩
    | _, _, _, _, _, _ => none
  | _ => none

/-- `CustomerInfo.model_validate`. -/
def validateCustomerInfo (j : Json) : Option CustomerInfo :=
  match j with
  | .obj fs =>
    match getOptStr fs "name", getOptStr fs "address", getOptStr fs "vat_number" with
    | some a, some b, some c => some ⟨a, b, c⟩
    | _, _, _ => none
  | _ => none

/-- `InvoiceItem.model_validate`: `description` is required. -/
def validateInvoiceItem (j : Json) : Option InvoiceItem :=
  match j with
  | .obj fs =>
    match getReqStr fs "description", getOptStr fs "quantity", getOptStr fs "unit_price",
          getOptStr fs "total_price" with
    | some d, some q, some u, some t => some ⟨d, q, u, t⟩
    | _, _, _, _ => none
  | _ => none

/-- `Summary.model_validate`: `has_company_stamp` is required. -/
def validateSummary (j : Json) : Option Summary :=
  match j with
  | .obj fs =>
    match getOptStr fs "subtotal", getOptStr fs "tax_amount", getOptStr fs "tax_rate_percent",
          getOptStr fs "discount_amount", getOptStr fs "total_amount_due",
          getOptStr fs "amount_in_words", getReqStr fs "has_company_stamp" with
    | some a, some b, some c, some d, some e, some f, some g => some ⟨a, b, c, d, e, f, g⟩
    | _, _, _, _, _, _, _ => none
  | _ => none

/-- Element-wise validation of a JSON array of line items: all elements must
validate, in order (all-or-nothing). -/
def validateItemList : List Json → Option (List InvoiceItem)
  | [] => some []
  | x :: xs =>
    match validateInvoiceItem x, validateItemList xs with
    | some it, some its => some (it :: its)
    | _, _ => none

/-- Validation of the required `List[InvoiceItem]` field: the value must be
an array and every element must validate. -/
def validateLineItems (j : Json) : Option (List InvoiceItem) :=
  match j with
  | .arr xs => validateItemList xs
  | _ => none

/-- `InvoiceData.model_validate`: the five optional root fields plus the
four required sub-structures (a missing required key is a validation
failure; validation is all-or-nothing). -/
def validateInvoiceData (j : Json) : Option InvoiceData :=
  match j with
  | .obj fs =>
    match getOptStr fs "invoice_number", getOptStr fs "transaction_number",
          getOptStr fs "reference_number", getOptStr fs "invoice_date_ad",
          getOptStr fs "invoice_miti_bs",
          (jLookup fs "vendor_info").bind validateVendorInfo,
          (jLookup fs "customer_info").bind validateCustomerInfo,
          (jLookup fs "line_items").bind validateLineItems,
          (jLookup fs "summary").bind validateSummary with
    | some a, some b, some c, some d, some e, some v, some cu, some li, some su =>
      some ⟨a, b, c, d, e, v, cu, li, su⟩
    | _, _, _, _, _, _, _, _, _ => none
  | _ => none

/-- Serialization of one optional string field by `model_dump(mode='json')`:
`None` becomes JSON `null`. -/
def dumpOptStr : Option String → Json
  | none => .null
  | some s => .str s

/-- `VendorInfo.model_dump(mode='json')`: every declared key is emitted, in
declaration order. -/
def dumpVendorInfo (v : VendorInfo) : Json :=
  .obj [("name_english", dumpOptStr v.name_english),
        ("name_nepali", dumpOptStr v.name_nepali),
        ("address", dumpOptStr v.address),
        ("phone", dumpOptStr v.phone),
        ("email", dumpOptStr v.email),
        ("vat_number", dumpOptStr v.vat_number)]

/-- `CustomerInfo.model_dump(mode='json')`. -/
def dumpCustomerInfo (c : CustomerInfo) : Json :=
  .obj [("name", dumpOptStr c.name),
        ("address", dumpOptStr c.address),
        ("vat_number", dumpOptStr c.vat_number)]

/-- `InvoiceItem.model_dump(mode='json')`. -/
def dumpInvoiceItem (it : InvoiceItem) : Json :=
  .obj [("description", .str it.description),
        ("quantity", dumpOptStr it.quantity),
        ("unit_price", dumpOptStr it.unit_price),
        ("total_price", dumpOptStr it.total_price)]

/-- `Summary.model_dump(mode='json')`. -/
def dumpSummary (s : Summary) : Json :=
  .obj [("subtotal", dumpOptStr s.subtotal),
        ("tax_amount", dumpOptStr s.tax_amount),
        ("tax_rate_percent", dumpOptStr s.tax_rate_percent),
        ("discount_amount", dumpOptStr s.discount_amount),
        ("total_amount_due", dumpOptStr s.total_amount_due),
        ("amount_in_words", dumpOptStr s.amount_in_words),
        ("has_company_stamp", .str s.has_company_stamp)]

/-- `InvoiceData.model_dump(mode='json')`, the value stored in the JSONB
column by `crud.create_invoice_log`. -/
def dumpInvoiceData (d : InvoiceData) : Json :=
  .obj [("invoice_number", dumpOptStr d.invoice_number),
        ("transaction_number", dumpOptStr d.transaction_number),
        ("reference_number", dumpOptStr d.reference_number),
        ("invoice_date_ad", dumpOptStr d.invoice_date_ad),
        ("invoice_miti_bs", dumpOptStr d.invoice_miti_bs),
        ("vendor_info", dumpVendorInfo d.vendor_info),
        ("customer_info", dumpCustomerInfo d.customer_info),
        ("line_items", .arr (d.line_items.map dumpInvoiceItem)),
        ("summary", dumpSummary d.summary)]

/-- Raw uploaded bytes. -/
abbrev Bytes := List Nat

/-- An in-memory PIL image, opaque to the pipeline. -/
structure Img where
  pix : Nat

/-- An image converted to 3-channel colour by `PIL.Image.convert("RGB")`. -/
structure RGBImg where
  src : Img

/-- A single-frame lossy re-encoding produced by `save(format="JPEG")`. -/
structure JpegBytes where
  image : RGBImg

/-- `convert("RGB")` followed by `save(format="JPEG")`, the re-encoding used
by both the extraction path and the preview endpoint. -/
def encodeJpegRGB (i : Img) : JpegBytes :=
  ⟨⟨i⟩⟩

/-- Typed failures of the upload pipeline.  In `main.upload_invoice` every
one of these surfaces as an HTTP error and aborts the request; the
constructor payload of `malformedResponse` is the offending sanitized text
embedded in the raised message. -/
inductive Err where
  | noFilename
  | pdfConvertFailed
  | emptyDocument
  | unsupportedFormat
  | imageDecodeFailed
  | transportError
  | malformedResponse (text : List Char)
  | schemaViolation

/-- One row of the `invoice_logs` table (`models.InvoiceLog`). -/
structure InvoiceLogRow where
  id : Int
  filename : List Char
  file_content : Bytes
  extracted_schema_content : Json
  created_at : Nat

/-- The success payload returned by `main.upload_invoice`. -/
structure UploadOk where
  log_id : Int
  data : InvoiceData

/-- `crud.create_invoice_log`: append one row holding the filename, the raw
bytes and the serialized validated record; the identity is assigned by the
storage layer (modelled as the next serial value). -/
def create_invoice_log (db : List InvoiceLogRow) (filename : List Char)
    (file_bytes : Bytes) (data : InvoiceData) (now : Nat) :
    InvoiceLogRow × List InvoiceLogRow :=
  let row : InvoiceLogRow :=
    ⟨Int.ofNat db.length + 1, filename, file_bytes, dumpInvoiceData data, now⟩
  (row, db ++ [row])

/-- Content-type marker checked first by `main.upload_invoice`
(`"application/pdf" in content_type`). -/
def pdfType : List Char := "application/pdf".toList

/-- Content-type marker checked second (`"image" in content_type`). -/
def imgType : List Char := "image".toList

/-- Document normalization from `main.upload_invoice` lines 68-77: PDF
content types are rendered by `pdf2image` (modelled by the `pdfRender`
result: `none` when `convert_from_bytes` raises) and only the first page is
kept, an empty page list is rejected; image content types are decoded
directly by PIL (`imgDecode`, `none` when `Image.open` raises); anything
else is rejected before any decoding. -/
def normalizeUpload (ct : List Char) (pdfRender : Option (List Img))
    (imgDecode : Option Img) : Except Err Img :=
  if occursIn pdfType ct then
    match pdfRender with
    | none => .error .pdfConvertFailed
    | some [] => .error .emptyDocument
    | some (p :: _) => .ok p
  else if occursIn imgType ct then
    match imgDecode with
    | none => .error .imageDecodeFailed
    | some i => .ok i
  else .error .unsupportedFormat

/-- `service.process_invoice_with_vllm` after the HTTP call: `modelOf`
returns the raw text of the model's first completion choice for the given
image (`none` when the transport fails); the text is sanitized, parsed by
`json.loads` (the external parser `jsonLoads`; `none` models a
`JSONDecodeError`, in which case the raised `ValueError` message embeds the
offending sanitized text) and validated with Pydantic. -/
def process_invoice_with_vllm (modelOf : Img → Option (List Char))
    (jsonLoads : List Char → Option Json) (image : Img) : Except Err InvoiceData :=
  match modelOf image with
  | none => .error .transportError
  | some raw =>
    let content := sanitize raw
    match jsonLoads content with
    | none => .error (.malformedResponse content)
    | some j =>
      match validateInvoiceData j with
      | none => .error .schemaViolation
      | some d => .ok d

/-- `main.upload_invoice`: reject an empty filename; normalize the upload to
one image; run extraction, sanitization, parsing and validation; only after
all of that succeeds, persist one row via `crud.create_invoice_log`.  Every
failure aborts the request with a typed error and leaves the table
untouched. -/
def upload_invoice (filename ct : List Char) (content : Bytes)
    (pdfRender : Option (List Img)) (imgDecode : Option Img)
    (modelOf : Img → Option (List Char)) (jsonLoads : List Char → Option Json)
    (db : List InvoiceLogRow) (now : Nat) :
    Except Err UploadOk × List InvoiceLogRow :=
  if filename = [] then (.error .noFilename, db)
  else
    match normalizeUpload ct pdfRender imgDecode with
    | .error e => (.error e, db)
    | .ok img =>
      match process_invoice_with_vllm modelOf jsonLoads img with
      | .error e => (.error e, db)
      | .ok d =>
        let (row, db2) := create_invoice_log db filename content d now
        (.ok ⟨row.id, d⟩, db2)

/-- The typed failure of the preview endpoint. -/
inductive PreviewErr where
  | previewUnavailable

/-- `main.preview_log_image` on the stored bytes of an existing row: try a
direct PIL decode first (`imgDecode`, `none` when `Image.open` raises an
`IOError`, which is what PIL's `UnidentifiedImageError` is); on failure
fall back to `pdf2image` rendering (`pdfRender`, `none` when it raises,
swallowed by the bare `except`) and take the first page; if no image was
obtained, fail; otherwise re-encode the image as single-frame RGB JPEG. -/
def preview_log_image (imgDecode : Option Img) (pdfRender : Option (List Img)) :
    Except PreviewErr JpegBytes :=
  match imgDecode with
  | some i => .ok (encodeJpegRGB i)
  | none =>
    match pdfRender with
    | some (p :: _) => .ok (encodeJpegRGB p)
    | _ => .error .previewUnavailable

/-- The metadata projection returned by `crud.get_invoice_logs_metadata`
(id, filename, created_at, extracted content and the computed byte length
of the stored blob; never the raw bytes). -/
structure LogMeta where
  id : Int
  filename : List Char
  created_at : Nat
  extracted_schema_content : Json
  file_size : Nat

/-- The metadata row selected for one stored row. -/
def rowMeta (r : InvoiceLogRow) : LogMeta :=
  ⟨r.id, r.filename, r.created_at, r.extracted_schema_content, r.file_content.length⟩

/-- Insertion step of the `ORDER BY created_at DESC` model. -/
def insertDesc (r : LogMeta) : List LogMeta → List LogMeta
  | [] => [r]
  | x :: xs => if r.created_at ≤ x.created_at then x :: insertDesc r xs else r :: x :: xs

/-- `ORDER BY created_at DESC` (ties are broken arbitrarily by the storage
layer; this model keeps a fixed deterministic resolution). -/
def sortDesc : List LogMeta → List LogMeta
  | [] => []
  | x :: xs => insertDesc x (sortDesc xs)

/-- Python `str.isdigit` on one character, restricted to the characters
relevant here: the decimal digits plus the superscript digits, which
`str.isdigit` accepts (Unicode `Numeric_Type=Digit`) although `int()`
rejects them. -/
def pyIsDigitChar (c : Char) : Bool :=
  c.isDigit || c = '¹' || c = '²' || c = '³'

/-- Python `str.isdigit`: nonempty and all characters digits. -/
def pyIsDigitStr (l : List Char) : Bool :=
  !l.isEmpty && l.all pyIsDigitChar

/-- Python `int(s)` on a digit string: defined exactly on nonempty strings
of decimal digits (`'0'..'9'`); on any other input gated through
`str.isdigit` (such as a superscript digit) it raises `ValueError`,
modelled by `none`. -/
def pyIntOfStr? (l : List Char) : Option Int :=
  if !l.isEmpty && l.all Char.isDigit then
    some (Int.ofNat (l.foldl (fun n c => n * 10 + (c.toNat - 48)) 0))
  else none

/-- Lower-casing for the `ILIKE` filename filter. -/
def lowerL (l : List Char) : List Char :=
  l.map Char.toLower

/-- `crud.get_invoice_logs_metadata`: order by creation time descending,
then filter — no filter when the query is absent or empty (Python
truthiness of `search_query`); under `search_type == "id"`, a query passing
`str.isdigit` is converted with `int()` (which raises, `Except.error`, on a
non-decimal digit character) and matched exactly against the id, and any
other query text is matched against the impossible id `-1`; under any other
search type, a case-insensitive substring match on the filename — then
paginate with offset/limit. -/
def get_invoice_logs_metadata (db : List InvoiceLogRow) (skip limit : Nat)
    (search_query : Option (List Char)) (search_type : List Char) :
    Except Unit (List LogMeta) :=
  let base := sortDesc (db.map rowMeta)
  let filtered : Except Unit (List LogMeta) :=
    match search_query with
    | none => .ok base
    | some q =>
      if q = [] then .ok base
      else if search_type = "id".toList then
        if pyIsDigitStr q then
          match pyIntOfStr? q with
          | some n => .ok (base.filter (fun r => r.id == n))
          | none => .error ()
        else .ok (base.filter (fun r => r.id == (-1 : Int)))
      else .ok (base.filter (fun r => occursIn (lowerL q) (lowerL r.filename)))
  match filtered with
  | .error e => .error e
  | .ok rows => .ok ((rows.drop skip).take limit)

/-- Modelled from the spec's words for the tagged-fence sanitization path:
"only the content between the first occurrence of the tagged marker and the
next fence marker is used" — the suffix after the first occurrence of the
tagged marker, cut at the first occurrence of a generic fence marker in
that suffix.  Kept separate from `sanitize` (which is translated from the
source) so the two can be compared. -/
def specTaggedFenceContent (l : List Char) : List Char :=
  cutAtFirst codeFence (afterFirst jsonFence l)

/-- The schema-declared keys of `InvoiceData`, in declaration order. -/
def invoiceDataKeys : List String :=
  ["invoice_number", "transaction_number", "reference_number", "invoice_date_ad",
   "invoice_miti_bs", "vendor_info", "customer_info", "line_items", "summary"]

/-- The schema-declared keys of `VendorInfo`. -/
def vendorInfoKeys : List String :=
  ["name_english", "name_nepali", "address", "phone", "email", "vat_number"]

/-- The schema-declared keys of `CustomerInfo`. -/
def customerInfoKeys : List String :=
  ["name", "address", "vat_number"]

/-- The schema-declared keys of `Summary`. -/
def summaryKeys : List String :=
  ["subtotal", "tax_amount", "tax_rate_percent", "discount_amount",
   "total_amount_due", "amount_in_words", "has_company_stamp"]

/-- The schema-declared keys of `InvoiceItem`. -/
def invoiceItemKeys : List String :=
  ["description", "quantity", "unit_price", "total_price"]

/-- A parsed JSON object carrying all required keys but none of the optional
ones (in particular no "invoice_number" key). -/
def cexJsonFields : List (String × Json) :=
  [("vendor_info", Json.obj []),
   ("customer_info", Json.obj []),
   ("line_items", Json.arr []),
   ("summary", Json.obj [("has_company_stamp", Json.str "Yes")])]

/-- The record that Pydantic produces for `cexJsonFields`: every optional
field implicitly `None`. -/
def cexData : InvoiceData :=
  ⟨none, none, none, none, none,
   ⟨none, none, none, none, none, none⟩,
   ⟨none, none, none⟩,
   [],
   ⟨none, none, none, none, none, none, "Yes"⟩⟩

/-- A response text in which a generic fence overlaps a later occurrence of
the tagged marker (a run of five backticks). -/
def cexC2 : List Char := "a```jsonx`````jsonb".toList

/-- Concrete fixtures used by the witnesses. -/
def imgA : Img := ⟨0⟩

def imgB : Img := ⟨1⟩

def fnA : List Char := "invoice.png".toList

def ctImgA : List Char := "image/png".toList

def ctPdfA : List Char := "application/pdf".toList

def ctBadA : List Char := "text/plain".toList

def contentA : Bytes := [7, 7, 7]

def rawA : List Char := "the model rambled instead of answering".toList

def modelOkA : Img → Option (List Char) := fun _ => some rawA

def jsonLoadsOkA : List Char → Option Json := fun _ => some (Json.obj cexJsonFields)

def rowDemo : InvoiceLogRow := ⟨1, "inv1.png".toList, [0, 0], Json.obj [], 10⟩

def dbDemo : List InvoiceLogRow := [rowDemo]

lemma isPre_nil_right {p : List Char} (h : isPre p [] = true) : p = [] := by
  cases p with
  | nil => rfl
  | cons a as => simp [isPre] at h

lemma isPre_length_le {p l : List Char} (h : isPre p l = true) : p.length ≤ l.length := by
  induction p generalizing l with
  | nil => exact Nat.zero_le _
  | cons a as ih =>
    cases l with
    | nil => simp [isPre] at h
    | cons b bs =>
      simp only [isPre, Bool.and_eq_true] at h
      simpa [Nat.succ_le_succ_iff] using ih h.2

lemma isPre_trans {a b c : List Char} (h1 : isPre a b = true) (h2 : isPre b c = true) :
    isPre a c = true := by
  induction a generalizing b c with
  | nil => simp [isPre]
  | cons x xs ih =>
    cases b with
    | nil => simp [isPre] at h1
    | cons y ys =>
      cases c with
      | nil => simp [isPre] at h2
      | cons z zs =>
        simp only [isPre, Bool.and_eq_true, beq_iff_eq] at h1 h2 ⊢
        exact ⟨h1.1.trans h2.1, ih h1.2 h2.2⟩

lemma firstIdx?_nil {sep : List Char} (hs : sep ≠ []) : firstIdx? sep [] = none := by
  cases sep with
  | nil => exact absurd rfl hs
  | cons c cs => simp [firstIdx?, isPre]

lemma firstIdx?_bound {sep l : List Char} {i : Nat} (h : firstIdx? sep l = some i) :
    i + sep.length ≤ l.length := by
  induction l generalizing i with
  | nil =>
    simp only [firstIdx?] at h
    split at h
    · cases h
      have := isPre_nil_right (by assumption)
      simp [this]
    · cases h
  | cons c rest ih =>
    simp only [firstIdx?] at h
    split at h
    · cases h
      simpa using isPre_length_le (by assumption)
    · rcases Option.map_eq_some'.mp h with ⟨j, hj, rfl⟩
      have := ih hj
      simp only [List.length_cons]
      omega

lemma occursIn_mono {s1 s2 l : List Char} (hp : isPre s1 s2 = true)
    (h : occursIn s2 l = true) : occursIn s1 l = true := by
  induction l with
  | nil =>
    simp only [occursIn, firstIdx?] at h ⊢
    split at h
    · have : s2 = [] := isPre_nil_right (by assumption)
      subst this
      simp [hp]
    · simp at h
  | cons c rest ih =>
    simp only [occursIn, firstIdx?] at h ⊢
    split at h
    · rw [if_pos (isPre_trans hp (by assumption))]
      rfl
    · have hrest : occursIn s2 rest = true := by
        simp only [occursIn]
        simpa using h
      have := ih hrest
      simp only [occursIn] at this
      split
      · rfl
      · simpa using this

lemma pySplitF_congr {sep : List Char} (hs : sep ≠ []) :
    ∀ f g l, l.length ≤ f → l.length ≤ g → pySplitF sep f l = pySplitF sep g l := by
  intro f
  induction f with
  | zero =>
    intro g l hf _
    have hl : l = [] := List.eq_nil_of_length_eq_zero (Nat.le_zero.mp hf)
    subst hl
    cases g with
    | zero => rfl
    | succ g => simp [pySplitF, firstIdx?_nil hs]
  | succ f ih =>
    intro g l hf hg
    cases g with
    | zero =>
      have hl : l = [] := List.eq_nil_of_length_eq_zero (Nat.le_zero.mp hg)
      subst hl
      simp [pySplitF, firstIdx?_nil hs]
    | succ g =>
      cases hfi : firstIdx? sep l with
      | none => simp [pySplitF, hfi]
      | some i =>
        have hb := firstIdx?_bound hfi
        have hsl : 1 ≤ sep.length := by
          cases sep with
          | nil => exact absurd rfl hs
          | cons c cs => simp
        have hdl : (l.drop (i + sep.length)).length ≤ f := by
          simp only [List.length_drop]
          omega
        have hdg : (l.drop (i + sep.length)).length ≤ g := by
          simp only [List.length_drop]
          omega
        simp only [pySplitF, hfi]
        rw [ih g _ hdl hdg]

lemma pySplit_of_none {sep l : List Char} (h : firstIdx? sep l = none) :
    pySplit sep l = [l] := by
  cases l with
  | nil => rfl
  | cons c cs => simp [pySplit, pySplitF, h]

lemma pySplit_of_some {sep l : List Char} {i : Nat} (hs : sep ≠ [])
    (h : firstIdx? sep l = some i) :
    pySplit sep l = l.take i :: pySplit sep (l.drop (i + sep.length)) := by
  cases l with
  | nil => rw [firstIdx?_nil hs] at h; cases h
  | cons c cs =>
    show pySplitF sep (cs.length + 1) (c :: cs) = _
    simp only [pySplitF, h]
    have hb := firstIdx?_bound h
    have hsl : 1 ≤ sep.length := by
      cases sep with
      | nil => exact absurd rfl hs
      | cons x xs => simp
    have hd : ((c :: cs).drop (i + sep.length)).length ≤ cs.length := by
      simp only [List.length_drop, List.length_cons]
      omega
    rw [pySplitF_congr hs cs.length _ _ hd (Nat.le_refl _)]
    rfl

lemma pySplit_head {sep l : List Char} (hs : sep ≠ []) :
    (pySplit sep l).headD [] = cutAtFirst sep l := by
  cases hfi : firstIdx? sep l with
  | none => rw [pySplit_of_none hfi]; simp [cutAtFirst, hfi]
  | some i => rw [pySplit_of_some hs hfi]; simp [cutAtFirst, hfi]

lemma getD0_eq_headD (l : List (List Char)) : l.getD 0 [] = l.headD [] := by
  cases l <;> rfl

lemma pySplit_getD1 {sep l : List Char} {i : Nat} (hs : sep ≠ [])
    (h : firstIdx? sep l = some i) :
    (pySplit sep l).getD 1 [] = cutAtFirst sep (l.drop (i + sep.length)) := by
  rw [pySplit_of_some hs h, List.getD_cons_succ, getD0_eq_headD, pySplit_head hs]

lemma pyReplaceF_empty_join (old : List Char) :
    ∀ f l, pyReplaceF old [] f l = joinParts (pySplitF old f l) := by
  intro f
  induction f with
  | zero => intro l; simp [pyReplaceF, pySplitF, joinParts]
  | succ f ih =>
    intro l
    simp only [pyReplaceF, pySplitF]
    cases hfi : firstIdx? old l with
    | none => simp [joinParts]
    | some i => simp [joinParts, ih]

lemma pyReplace_empty_join (old l : List Char) :
    pyReplace old [] l = joinParts (pySplit old l) := by
  exact pyReplaceF_empty_join old l.length l

lemma jsonFence_ne : jsonFence ≠ [] := by decide

lemma codeFence_ne : codeFence ≠ [] := by decide

lemma codeFence_pre_jsonFence : isPre codeFence jsonFence = true := by decide

lemma decodeOptStr_dump (o : Option String) :
    decodeOptStr (some (dumpOptStr o)) = some o := by
  cases o <;> rfl

lemma validateVendorInfo_dump (v : VendorInfo) :
    validateVendorInfo (dumpVendorInfo v) = some v := by
  cases v
  simp [validateVendorInfo, dumpVendorInfo, getOptStr, jLookup, decodeOptStr_dump]

lemma validateCustomerInfo_dump (c : CustomerInfo) :
    validateCustomerInfo (dumpCustomerInfo c) = some c := by
  cases c
  simp [validateCustomerInfo, dumpCustomerInfo, getOptStr, jLookup, decodeOptStr_dump]

lemma validateSummary_dump (s : Summary) :
    validateSummary (dumpSummary s) = some s := by
  cases s
  simp [validateSummary, dumpSummary, getOptStr, getReqStr, jLookup, decodeOptStr_dump,
        decodeReqStr]

lemma validateInvoiceItem_dump (it : InvoiceItem) :
    validateInvoiceItem (dumpInvoiceItem it) = some it := by
  cases it
  simp [validateInvoiceItem, dumpInvoiceItem, getOptStr, getReqStr, jLookup,
        decodeOptStr_dump, decodeReqStr]

lemma validateLineItems_dump (l : List InvoiceItem) :
    validateLineItems (.arr (l.map dumpInvoiceItem)) = some l := by
  simp only [validateLineItems]
  induction l with
  | nil => rfl
  | cons x xs ih => simp [validateItemList, validateInvoiceItem_dump, ih]

lemma optNull_of {fs : List (String × Json)} {k : String} {fld : Option String}
    (hg : getOptStr fs k = some fld) (hn : jLookup fs k = none) : fld = none := by
  rw [getOptStr, hn] at hg
  exact (Option.some_inj.mp hg).symm

lemma validateVendorInfo_fields {fs : List (String × Json)} {v : VendorInfo}
    (h : validateVendorInfo (Json.obj fs) = some v) :
    getOptStr fs "name_english" = some v.name_english ∧
    getOptStr fs "name_nepali" = some v.name_nepali ∧
    getOptStr fs "address" = some v.address ∧
    getOptStr fs "phone" = some v.phone ∧
    getOptStr fs "email" = some v.email ∧
    getOptStr fs "vat_number" = some v.vat_number := by
  simp only [validateVendorInfo] at h
  split at h
  · next a b c d e f ha hb hc hd he hf =>
    injection h with h
    subst h
    exact ⟨ha, hb, hc, hd, he, hf⟩
  · simp at h

lemma validateCustomerInfo_fields {fs : List (String × Json)} {c : CustomerInfo}
    (h : validateCustomerInfo (Json.obj fs) = some c) :
    getOptStr fs "name" = some c.name ∧
    getOptStr fs "address" = some c.address ∧
    getOptStr fs "vat_number" = some c.vat_number := by
  simp only [validateCustomerInfo] at h
  split at h
  · next a b c2 ha hb hc =>
    injection h with h
    subst h
    exact ⟨ha, hb, hc⟩
  · simp at h

lemma validateSummary_fields {fs : List (String × Json)} {s : Summary}
    (h : validateSummary (Json.obj fs) = some s) :
    getOptStr fs "subtotal" = some s.subtotal ∧
    getOptStr fs "tax_amount" = some s.tax_amount ∧
    getOptStr fs "tax_rate_percent" = some s.tax_rate_percent ∧
    getOptStr fs "discount_amount" = some s.discount_amount ∧
    getOptStr fs "total_amount_due" = some s.total_amount_due ∧
    getOptStr fs "amount_in_words" = some s.amount_in_words ∧
    getReqStr fs "has_company_stamp" = some s.has_company_stamp := by
  simp only [validateSummary] at h
  split at h
  · next a b c d e f g ha hb hc hd he hf hg =>
    injection h with h
    subst h
    exact ⟨ha, hb, hc, hd, he, hf, hg⟩
  · simp at h

lemma validateInvoiceItem_fields {fs : List (String × Json)} {it : InvoiceItem}
    (h : validateInvoiceItem (Json.obj fs) = some it) :
    getReqStr fs "description" = some it.description ∧
    getOptStr fs "quantity" = some it.quantity ∧
    getOptStr fs "unit_price" = some it.unit_price ∧
    getOptStr fs "total_price" = some it.total_price := by
  simp only [validateInvoiceItem] at h
  split at h
  · next a b c d ha hb hc hd =>
    injection h with h
    subst h
    exact ⟨ha, hb, hc, hd⟩
  · simp at h

lemma validateInvoiceData_fields {fs : List (String × Json)} {d : InvoiceData}
    (h : validateInvoiceData (Json.obj fs) = some d) :
    getOptStr fs "invoice_number" = some d.invoice_number ∧
    getOptStr fs "transaction_number" = some d.transaction_number ∧
    getOptStr fs "reference_number" = some d.reference_number ∧
    getOptStr fs "invoice_date_ad" = some d.invoice_date_ad ∧
    getOptStr fs "invoice_miti_bs" = some d.invoice_miti_bs ∧
    (jLookup fs "vendor_info").bind validateVendorInfo = some d.vendor_info ∧
    (jLookup fs "customer_info").bind validateCustomerInfo = some d.customer_info ∧
    (jLookup fs "line_items").bind validateLineItems = some d.line_items ∧
    (jLookup fs "summary").bind validateSummary = some d.summary := by
  simp only [validateInvoiceData] at h
  split at h
  · next a b c e f v cu li su ha hb hc he hf hv hcu hli hsu =>
    injection h with h
    subst h
    exact ⟨ha, hb, hc, he, hf, hv, hcu, hli, hsu⟩
  · simp at h

lemma validateInvoiceData_missing_vendor {fs : List (String × Json)}
    (h : jLookup fs "vendor_info" = none) :
    validateInvoiceData (Json.obj fs) = none := by
  cases hval : validateInvoiceData (Json.obj fs) with
  | none => rfl
  | some d =>
    have hv := (validateInvoiceData_fields hval).2.2.2.2.2.1
    rw [h] at hv
    simp at hv

lemma validateInvoiceData_missing_customer {fs : List (String × Json)}
    (h : jLookup fs "customer_info" = none) :
    validateInvoiceData (Json.obj fs) = none := by
  cases hval : validateInvoiceData (Json.obj fs) with
  | none => rfl
  | some d =>
    have hv := (validateInvoiceData_fields hval).2.2.2.2.2.2.1
    rw [h] at hv
    simp at hv

lemma validateInvoiceData_missing_items {fs : List (String × Json)}
    (h : jLookup fs "line_items" = none) :
    validateInvoiceData (Json.obj fs) = none := by
  cases hval : validateInvoiceData (Json.obj fs) with
  | none => rfl
  | some d =>
    have hv := (validateInvoiceData_fields hval).2.2.2.2.2.2.2.1
    rw [h] at hv
    simp at hv

lemma validateInvoiceData_missing_summary {fs : List (String × Json)}
    (h : jLookup fs "summary" = none) :
    validateInvoiceData (Json.obj fs) = none := by
  cases hval : validateInvoiceData (Json.obj fs) with
  | none => rfl
  | some d =>
    have hv := (validateInvoiceData_fields hval).2.2.2.2.2.2.2.2
    rw [h] at hv
    simp at hv

lemma validateInvoiceItem_missing_description {fs : List (String × Json)}
    (h : jLookup fs "description" = none) :
    validateInvoiceItem (Json.obj fs) = none := by
  cases hval : validateInvoiceItem (Json.obj fs) with
  | none => rfl
  | some it =>
    have hv := (validateInvoiceItem_fields hval).1
    rw [getReqStr, h] at hv
    simp [decodeReqStr] at hv

lemma validateSummary_missing_stamp {fs : List (String × Json)}
    (h : jLookup fs "has_company_stamp" = none) :
    validateSummary (Json.obj fs) = none := by
  cases hval : validateSummary (Json.obj fs) with
  | none => rfl
  | some s =>
    have hv := (validateSummary_fields hval).2.2.2.2.2.2
    rw [getReqStr, h] at hv
    simp [decodeReqStr] at hv

/-- Claim C2, counterexample.  The claim reads the tagged-fence path as
"only the content between the first tagged marker and the next fence marker
is used".  On `cexC2` (a text in which a five-backtick run follows the
tagged block and overlaps a second tagged marker), the content between the
first tagged marker and the next fence marker is the single character "x",
but the source's split-based extraction yields "x" followed by two
backticks: Python split scans non-overlapping occurrences, so the
closing-fence backticks that overlap the second tagged marker are kept in
the candidate.  The branch condition holds, yet the claimed and actual
sanitized texts differ. -/
theorem C2_counterexample :
    occursIn jsonFence cexC2 = true ∧
    sanitize cexC2 ≠ pyStrip (specTaggedFenceContent cexC2) := by
  constructor
  · rfl
  · decide

/-- Claim C2, amended: exactly one sanitization path is taken, with
tagged-fence precedence.  When the tagged marker occurs, the candidate is
the segment between the first and second non-overlapping occurrences of the
tagged marker (the whole remainder when there is no second), cut at the
first generic fence inside that segment and whitespace-stripped — which is
the content between the first tagged marker and the next fence marker
except in the overlapping-backtick-run corner exhibited by
`C2_counterexample`.  Otherwise, if any generic fence occurs, all fence
markers are removed (the concatenation of the fragments between
non-overlapping fence occurrences) and the remainder is stripped; otherwise
the raw text is used unchanged. -/
theorem C2_fence_precedence (l : List Char) :
    (occursIn jsonFence l = true →
      sanitize l =
        pyStrip (cutAtFirst codeFence (cutAtFirst jsonFence (afterFirst jsonFence l)))) ∧
    (occursIn jsonFence l = false → occursIn codeFence l = true →
      sanitize l = pyStrip (joinParts (pySplit codeFence l))) ∧
    (occursIn jsonFence l = false → occursIn codeFence l = false →
      sanitize l = l) := by
  refine ⟨?_, ?_, ?_⟩
  · intro h
    obtain ⟨i, hi⟩ : ∃ i, firstIdx? jsonFence l = some i := by
      cases hfi : firstIdx? jsonFence l with
      | none => rw [occursIn, hfi] at h; cases h
      | some i => exact ⟨i, rfl⟩
    simp only [sanitize, h, if_true]
    rw [pySplit_getD1 jsonFence_ne hi, pySplit_head codeFence_ne]
    simp [afterFirst, hi]
  · intro h1 h2
    simp only [sanitize, h1, h2, if_true, Bool.false_eq_true, if_false]
    rw [pyReplace_empty_join]
  · intro h1 h2
    simp [sanitize, h1, h2]

/-- Claim C2, witness: one concrete run of each sanitization path. -/
theorem C2_fence_precedence_witness :
    sanitize "x```json A ``` y".toList =
      pyStrip (cutAtFirst codeFence (cutAtFirst jsonFence
        (afterFirst jsonFence "x```json A ``` y".toList))) ∧
    sanitize "x ``` y".toList = pyStrip (joinParts (pySplit codeFence "x ``` y".toList)) ∧
    sanitize "plain text".toList = "plain text".toList := by
  refine ⟨?_, ?_, ?_⟩
  · exact (C2_fence_precedence _).1 (by decide)
  · exact (C2_fence_precedence _).2.1 (by decide) (by decide)
  · exact (C2_fence_precedence _).2.2 (by decide) (by decide)

/-- Claim C10: the sanitization step is a total function on the response
text (it is a Lean function `List Char → List Char`, so it returns on every
input); when the tagged marker occurs and no generic fence occurs after it,
the whole whitespace-stripped remainder after the first tagged marker is
the candidate text; when only generic fence markers occur, every
non-overlapping occurrence of the marker is removed, the surrounding text
is kept (the result is exactly the concatenation of the fragments between
occurrences, whitespace-stripped at the two ends) and handed to the
parser. -/
theorem C10_sanitizer_degenerate_cases (l : List Char) :
    (occursIn jsonFence l = true → occursIn codeFence (afterFirst jsonFence l) = false →
      sanitize l = pyStrip (afterFirst jsonFence l)) ∧
    (occursIn jsonFence l = false → occursIn codeFence l = true →
      sanitize l = pyStrip (joinParts (pySplit codeFence l))) := by
  constructor
  · intro h hnc
    obtain ⟨i, hi⟩ : ∃ i, firstIdx? jsonFence l = some i := by
      cases hfi : firstIdx? jsonFence l with
      | none => rw [occursIn, hfi] at h; cases h
      | some i => exact ⟨i, rfl⟩
    have hrest : afterFirst jsonFence l = l.drop (i + jsonFence.length) := by
      simp [afterFirst, hi]
    rw [hrest] at hnc
    have hfc : firstIdx? codeFence (l.drop (i + jsonFence.length)) = none := by
      cases hfc2 : firstIdx? codeFence (l.drop (i + jsonFence.length)) with
      | none => rfl
      | some j => rw [occursIn, hfc2] at hnc; cases hnc
    have hfj : firstIdx? jsonFence (l.drop (i + jsonFence.length)) = none := by
      cases hfj2 : firstIdx? jsonFence (l.drop (i + jsonFence.length)) with
      | none => rfl
      | some j =>
        have : occursIn codeFence (l.drop (i + jsonFence.length)) = true :=
          occursIn_mono codeFence_pre_jsonFence (by rw [occursIn, hfj2]; rfl)
        rw [this] at hnc
        cases hnc
    simp only [sanitize, h, if_true]
    rw [pySplit_getD1 jsonFence_ne hi]
    rw [show cutAtFirst jsonFence (l.drop (i + jsonFence.length)) =
          l.drop (i + jsonFence.length) by simp [cutAtFirst, hfj]]
    rw [pySplit_head codeFence_ne]
    simp [cutAtFirst, hfc, hrest]
  · intro h1 h2
    simp only [sanitize, h1, h2, if_true, Bool.false_eq_true, if_false]
    rw [pyReplace_empty_join]

/-- Claim C10, witness: a tagged marker with no closing fence, and a
generic-fence-only text. -/
theorem C10_sanitizer_degenerate_cases_witness :
    sanitize "s```json tail with no closing fence".toList =
      pyStrip (afterFirst jsonFence "s```json tail with no closing fence".toList) ∧
    sanitize "a ``` b ``` c".toList =
      pyStrip (joinParts (pySplit codeFence "a ``` b ``` c".toList)) := by
  constructor
  · exact (C10_sanitizer_degenerate_cases _).1 (by decide) (by decide)
  · exact (C10_sanitizer_degenerate_cases _).2 (by decide) (by decide)

/-- Claim C1, counterexample.  The claim states that a parsed object
omitting a schema-declared key fails validation rather than implicitly
receiving null.  `cexJsonFields` omits the schema-declared key
"invoice_number" (and every other optional key), yet `model_validate`
accepts it and implicitly supplies `None` for the omitted optional fields:
Pydantic only rejects a missing key for fields without a default, and
every optional field of the schema declares the default `None`. -/
theorem C1_counterexample :
    jLookup cexJsonFields "invoice_number" = none ∧
    validateInvoiceData (Json.obj cexJsonFields) = some cexData := by
  exact ⟨rfl, rfl⟩

/-- Claim C1, amended: every validated record serializes with every
schema-declared key present (including all nested `VendorInfo`,
`CustomerInfo`, `InvoiceItem` and `Summary` keys); a parsed object that
omits a required key (the nested models `vendor_info`, `customer_info`,
`line_items`, `summary` at the root, `description` on an item,
`has_company_stamp` on the summary) fails validation; and a parsed object
that omits an optional key validates with null (`None`) standing in for the
missing value at every nesting level rather than failing. -/
theorem C1_key_policy :
    (∀ d : InvoiceData,
      jKeys (dumpInvoiceData d) = invoiceDataKeys ∧
      jKeys (dumpVendorInfo d.vendor_info) = vendorInfoKeys ∧
      jKeys (dumpCustomerInfo d.customer_info) = customerInfoKeys ∧
      jKeys (dumpSummary d.summary) = summaryKeys ∧
      ∀ it ∈ d.line_items, jKeys (dumpInvoiceItem it) = invoiceItemKeys) ∧
    (∀ fs, jLookup fs "vendor_info" = none → validateInvoiceData (Json.obj fs) = none) ∧
    (∀ fs, jLookup fs "customer_info" = none → validateInvoiceData (Json.obj fs) = none) ∧
    (∀ fs, jLookup fs "line_items" = none → validateInvoiceData (Json.obj fs) = none) ∧
    (∀ fs, jLookup fs "summary" = none → validateInvoiceData (Json.obj fs) = none) ∧
    (∀ fs, jLookup fs "description" = none → validateInvoiceItem (Json.obj fs) = none) ∧
    (∀ fs, jLookup fs "has_company_stamp" = none → validateSummary (Json.obj fs) = none) ∧
    (∀ fs d, validateInvoiceData (Json.obj fs) = some d →
      (jLookup fs "invoice_number" = none → d.invoice_number = none) ∧
      (jLookup fs "transaction_number" = none → d.transaction_number = none) ∧
      (jLookup fs "reference_number" = none → d.reference_number = none) ∧
      (jLookup fs "invoice_date_ad" = none → d.invoice_date_ad = none) ∧
      (jLookup fs "invoice_miti_bs" = none → d.invoice_miti_bs = none)) ∧
    (∀ fs v, validateVendorInfo (Json.obj fs) = some v →
      (jLookup fs "name_english" = none → v.name_english = none) ∧
      (jLookup fs "name_nepali" = none → v.name_nepali = none) ∧
      (jLookup fs "address" = none → v.address = none) ∧
      (jLookup fs "phone" = none → v.phone = none) ∧
      (jLookup fs "email" = none → v.email = none) ∧
      (jLookup fs "vat_number" = none → v.vat_number = none)) ∧
    (∀ fs c, validateCustomerInfo (Json.obj fs) = some c →
      (jLookup fs "name" = none → c.name = none) ∧
      (jLookup fs "address" = none → c.address = none) ∧
      (jLookup fs "vat_number" = none → c.vat_number = none)) ∧
    (∀ fs s, validateSummary (Json.obj fs) = some s →
      (jLookup fs "subtotal" = none → s.subtotal = none) ∧
      (jLookup fs "tax_amount" = none → s.tax_amount = none) ∧
      (jLookup fs "tax_rate_percent" = none → s.tax_rate_percent = none) ∧
      (jLookup fs "discount_amount" = none → s.discount_amount = none) ∧
      (jLookup fs "total_amount_due" = none → s.total_amount_due = none) ∧
      (jLookup fs "amount_in_words" = none → s.amount_in_words = none)) ∧
    (∀ fs it, validateInvoiceItem (Json.obj fs) = some it →
      (jLookup fs "quantity" = none → it.quantity = none) ∧
      (jLookup fs "unit_price" = none → it.unit_price = none) ∧
      (jLookup fs "total_price" = none → it.total_price = none)) := by
  refine ⟨?_, ?_, ?_, ?_, ?_, ?_, ?_, ?_, ?_, ?_, ?_, ?_⟩
  · intro d
    exact ⟨rfl, rfl, rfl, rfl, fun it _ => rfl⟩
  · intro fs h
    exact validateInvoiceData_missing_vendor h
  · intro fs h
    exact validateInvoiceData_missing_customer h
  · intro fs h
    exact validateInvoiceData_missing_items h
  · intro fs h
    exact validateInvoiceData_missing_summary h
  · intro fs h
    exact validateInvoiceItem_missing_description h
  · intro fs h
    exact validateSummary_missing_stamp h
  · intro fs d h
    obtain ⟨h1, h2, h3, h4, h5, _, _, _, _⟩ := validateInvoiceData_fields h
    exact ⟨optNull_of h1, optNull_of h2, optNull_of h3, optNull_of h4, optNull_of h5⟩
  · intro fs v h
    obtain ⟨h1, h2, h3, h4, h5, h6⟩ := validateVendorInfo_fields h
    exact ⟨optNull_of h1, optNull_of h2, optNull_of h3, optNull_of h4,
           optNull_of h5, optNull_of h6⟩
  · intro fs c h
    obtain ⟨h1, h2, h3⟩ := validateCustomerInfo_fields h
    exact ⟨optNull_of h1, optNull_of h2, optNull_of h3⟩
  · intro fs s h
    obtain ⟨h1, h2, h3, h4, h5, h6, _⟩ := validateSummary_fields h
    exact ⟨optNull_of h1, optNull_of h2, optNull_of h3, optNull_of h4,
           optNull_of h5, optNull_of h6⟩
  · intro fs it h
    obtain ⟨_, h2, h3, h4⟩ := validateInvoiceItem_fields h
    exact ⟨optNull_of h2, optNull_of h3, optNull_of h4⟩

/-- Claim C1, witness: the key lists of a concrete dumped record, failure on
a concrete object missing a required key, and implicit null on a concrete
object missing optional keys. -/
theorem C1_key_policy_witness :
    jKeys (dumpInvoiceData cexData) = invoiceDataKeys ∧
    validateInvoiceData (Json.obj []) = none ∧
    validateSummary (Json.obj []) = none ∧
    cexData.invoice_number = none ∧
    cexData.vendor_info.phone = none := by
  refine ⟨(C1_key_policy.1 cexData).1, C1_key_policy.2.1 [] rfl,
          C1_key_policy.2.2.2.2.2.2.1 [] rfl, ?_, ?_⟩
  · exact (C1_key_policy.2.2.2.2.2.2.2.1 cexJsonFields cexData rfl).1 rfl
  · exact (C1_key_policy.2.2.2.2.2.2.2.2.1 [] cexData.vendor_info rfl).2.2.2.1 rfl

/-- Claim C4: serializing a validated record with `model_dump(mode='json')`
(the value persisted in the `extracted_schema_content` JSONB column by
`crud.create_invoice_log`) and validating the persisted structure back with
`model_validate` yields the identical logical value — the round-trip is
lossless. -/
theorem C4_round_trip (d : InvoiceData) :
    validateInvoiceData (dumpInvoiceData d) = some d := by
  cases d with
  | mk a b c e f v cu li su =>
    simp [validateInvoiceData, dumpInvoiceData, getOptStr, jLookup, decodeOptStr_dump,
          validateVendorInfo_dump, validateCustomerInfo_dump, validateLineItems_dump,
          validateSummary_dump]

/-- Claim C8: whenever the sanitized response text fails JSON parsing, the
pipeline fails with a malformed-response error whose payload is exactly the
offending sanitized text (the `ValueError` message of the source embeds the
full text, so it is never silently discarded; no truncation is applied). -/
theorem C8_malformed_response (modelOf : Img → Option (List Char))
    (jsonLoads : List Char → Option Json) (img : Img) (raw : List Char)
    (hm : modelOf img = some raw) (hj : jsonLoads (sanitize raw) = none) :
    process_invoice_with_vllm modelOf jsonLoads img =
      .error (.malformedResponse (sanitize raw)) := by
  simp [process_invoice_with_vllm, hm, hj]

/-- Claim C8, witness: a concrete unparseable response. -/
theorem C8_malformed_response_witness :
    process_invoice_with_vllm (fun _ => some rawA) (fun _ => none) imgA =
      .error (.malformedResponse (sanitize rawA)) :=
  C8_malformed_response (fun _ => some rawA) (fun _ => none) imgA rawA rfl rfl

/-- Claim C9: the preview endpoint tries a direct image decode of the stored
bytes first (when it succeeds the document renderer is never consulted);
on decode failure it falls back to document rendering and takes the first
page; when both fail (rendering raised, or rendered zero pages) it fails
with the preview-unavailable error, which the endpoint handles as an HTTP
error rather than an unhandled fault; every success is re-encoded as a
single-frame RGB JPEG. -/
theorem C9_preview_fallback (imgDecode : Option Img) (pdfRender : Option (List Img)) :
    (∀ i, imgDecode = some i →
      preview_log_image imgDecode pdfRender = .ok (encodeJpegRGB i)) ∧
    (∀ p rest, imgDecode = none → pdfRender = some (p :: rest) →
      preview_log_image imgDecode pdfRender = .ok (encodeJpegRGB p)) ∧
    (imgDecode = none → pdfRender = none →
      preview_log_image imgDecode pdfRender = .error .previewUnavailable) ∧
    (imgDecode = none → pdfRender = some [] →
      preview_log_image imgDecode pdfRender = .error .previewUnavailable) := by
  refine ⟨?_, ?_, ?_, ?_⟩
  · intro i h
    subst h
    rfl
  · intro p rest h1 h2
    subst h1
    subst h2
    rfl
  · intro h1 h2
    subst h1
    subst h2
    rfl
  · intro h1 h2
    subst h1
    subst h2
    rfl

/-- Claim C9, witness: all four concrete preview outcomes. -/
theorem C9_preview_fallback_witness :
    preview_log_image (some imgA) none = .ok (encodeJpegRGB imgA) ∧
    preview_log_image none (some [imgB]) = .ok (encodeJpegRGB imgB) ∧
    preview_log_image none none = .error .previewUnavailable ∧
    preview_log_image none (some []) = .error .previewUnavailable := by
  refine ⟨?_, ?_, ?_, ?_⟩
  · exact (C9_preview_fallback (some imgA) none).1 imgA rfl
  · exact (C9_preview_fallback none (some [imgB])).2.1 imgB [] rfl rfl
  · exact (C9_preview_fallback none none).2.2.1 rfl rfl
  · exact (C9_preview_fallback none (some [])).2.2.2 rfl rfl

/-- Claim C5, bug evaluation.  The source gates the id filter with
`search_query.isdigit()` and then calls `int(search_query)`, but
`str.isdigit` accepts digit characters that `int()` rejects (for example
the superscript two), so a search with mode "id" and text "²" raises
`ValueError` inside the endpoint instead of returning an empty result set —
contradicting both the claim and the source's own comment ("Only filter by
ID if query is a valid integer").  For genuinely non-digit text the code
does return an empty set, and for a decimal digit string it filters by
exact id match. -/
theorem C5_bug_eval :
    get_invoice_logs_metadata dbDemo 0 10 (some ['²']) "id".toList = .error () ∧
    get_invoice_logs_metadata dbDemo 0 10 (some "abc".toList) "id".toList = .ok [] ∧
    get_invoice_logs_metadata dbDemo 0 10 (some "1".toList) "id".toList =
      .ok [rowMeta rowDemo] := by
  exact ⟨rfl, rfl, rfl⟩

lemma process_ok_inversion {modelOf : Img → Option (List Char)}
    {jsonLoads : List Char → Option Json} {img : Img} {d : InvoiceData}
    (h : process_invoice_with_vllm modelOf jsonLoads img = .ok d) :
    ∃ raw j, modelOf img = some raw ∧ jsonLoads (sanitize raw) = some j ∧
      validateInvoiceData j = some d := by
  unfold process_invoice_with_vllm at h
  cases hm : modelOf img with
  | none => rw [hm] at h; cases h
  | some raw =>
    rw [hm] at h
    simp only at h
    cases hj : jsonLoads (sanitize raw) with
    | none => rw [hj] at h; simp only at h; cases h
    | some j =>
      rw [hj] at h
      simp only at h
      cases hv : validateInvoiceData j with
      | none => rw [hv] at h; simp only at h; cases h
      | some d2 =>
        rw [hv] at h
        simp only at h
        injection h with h
        subst h
        exact ⟨raw, j, rfl, hj, hv⟩

/-- Claim C3: the pipeline is all-or-nothing.  Whatever the failure
(missing filename, normalization, transport, response parsing or schema
validation), the table is left exactly as it was — no `InvoiceLog` row is
created — and a success only ever returns a record that was obtained by
validating the parsed model response: no default or guessed `InvoiceData`
is ever synthesized in place of a failure. -/
theorem C3_all_or_nothing (filename ct : List Char) (content : Bytes)
    (pdfRender : Option (List Img)) (imgDecode : Option Img)
    (modelOf : Img → Option (List Char)) (jsonLoads : List Char → Option Json)
    (db : List InvoiceLogRow) (now : Nat) :
    (∀ e, (upload_invoice filename ct content pdfRender imgDecode modelOf
        jsonLoads db now).1 = .error e →
      (upload_invoice filename ct content pdfRender imgDecode modelOf
        jsonLoads db now).2 = db) ∧
    (∀ ok, (upload_invoice filename ct content pdfRender imgDecode modelOf
        jsonLoads db now).1 = .ok ok →
      ∃ img raw j, normalizeUpload ct pdfRender imgDecode = .ok img ∧
        modelOf img = some raw ∧ jsonLoads (sanitize raw) = some j ∧
        validateInvoiceData j = some ok.data) := by
  constructor
  · intro e he
    by_cases hfn : filename = []
    · simp [upload_invoice, hfn]
    · simp only [upload_invoice, if_neg hfn] at he ⊢
      cases hn : normalizeUpload ct pdfRender imgDecode with
      | error e2 => rfl
      | ok img =>
        rw [hn] at he
        simp only at he ⊢
        cases hp : process_invoice_with_vllm modelOf jsonLoads img with
        | error e2 => rfl
        | ok d =>
          rw [hp] at he
          simp at he
  · intro ok hok
    by_cases hfn : filename = []
    · simp [upload_invoice, hfn] at hok
    · simp only [upload_invoice, if_neg hfn] at hok
      cases hn : normalizeUpload ct pdfRender imgDecode with
      | error e2 => rw [hn] at hok; simp at hok
      | ok img =>
        rw [hn] at hok
        simp only at hok
        cases hp : process_invoice_with_vllm modelOf jsonLoads img with
        | error e2 => rw [hp] at hok; simp at hok
        | ok d =>
          rw [hp] at hok
          simp only at hok
          injection hok with hok
          obtain ⟨raw, j, hm, hj, hv⟩ := process_ok_inversion hp
          refine ⟨img, raw, j, rfl, hm, hj, ?_⟩
          rw [← hok]
          exact hv

/-- Claim C3, witness: a concrete failed upload leaves the table unchanged,
and a concrete successful upload's record is traceable to a validated
parse. -/
theorem C3_all_or_nothing_witness :
    (upload_invoice fnA ctBadA contentA none none modelOkA jsonLoadsOkA [] 5).2 = [] ∧
    ∃ img raw j, normalizeUpload ctImgA none (some imgA) = .ok img ∧
      modelOkA img = some raw ∧ jsonLoadsOkA (sanitize raw) = some j ∧
      validateInvoiceData j = some (UploadOk.mk 1 cexData).data := by
  constructor
  · exact (C3_all_or_nothing fnA ctBadA contentA none none modelOkA jsonLoadsOkA
      [] 5).1 .unsupportedFormat rfl
  · exact (C3_all_or_nothing fnA ctImgA contentA none (some imgA) modelOkA jsonLoadsOkA
      [] 5).2 (UploadOk.mk 1 cexData) rfl

/-- Claim C6: an upload whose declared content-type contains neither the
paginated-document marker ("application/pdf") nor the raster-image marker
("image") fails with the unsupported-format error before any decoding is
attempted — the result does not depend on the decoding collaborators, which
is how the theorem quantifies over them — and a paginated-document upload
that renders zero pages fails with the empty-document error.  Both failures
leave the table untouched.  Both statements assume the upload carries a
nonempty filename; an unnamed upload is rejected by an earlier guard before
the content-type is consulted. -/
theorem C6_format_dispatch (filename ct : List Char) (content : Bytes)
    (pdfRender : Option (List Img)) (imgDecode : Option Img)
    (modelOf : Img → Option (List Char)) (jsonLoads : List Char → Option Json)
    (db : List InvoiceLogRow) (now : Nat) :
    (filename ≠ [] → occursIn pdfType ct = false → occursIn imgType ct = false →
      upload_invoice filename ct content pdfRender imgDecode modelOf jsonLoads db now =
        (.error .unsupportedFormat, db)) ∧
    (filename ≠ [] → occursIn pdfType ct = true → pdfRender = some [] →
      upload_invoice filename ct content pdfRender imgDecode modelOf jsonLoads db now =
        (.error .emptyDocument, db)) := by
  constructor
  · intro hfn h1 h2
    simp [upload_invoice, hfn, normalizeUpload, h1, h2]
  · intro hfn h1 h2
    subst h2
    simp [upload_invoice, hfn, normalizeUpload, h1]

/-- Claim C6, witness: a concrete unsupported content-type and a concrete
zero-page document. -/
theorem C6_format_dispatch_witness :
    upload_invoice fnA ctBadA contentA none (some imgA) modelOkA jsonLoadsOkA [] 5 =
      (.error .unsupportedFormat, []) ∧
    upload_invoice fnA ctPdfA contentA (some []) (some imgA) modelOkA jsonLoadsOkA [] 5 =
      (.error .emptyDocument, []) := by
  constructor
  · exact (C6_format_dispatch fnA ctBadA contentA none (some imgA) modelOkA jsonLoadsOkA
      [] 5).1 (by decide) (by decide) (by decide)
  · exact (C6_format_dispatch fnA ctPdfA contentA (some []) (some imgA) modelOkA
      jsonLoadsOkA [] 5).2 (by decide) (by decide) rfl

/-- Claim C7: a successful upload appends exactly one row whose
`file_content` is the uploaded byte blob itself, byte for byte (together
with the supplied filename and the serialized validated record); and the
pipeline only ever consumes the first rendered page, so for a multi-page
document the persisted bytes are still the full original blob — replacing
the renderer's tail pages changes nothing about the upload's outcome. -/
theorem C7_persisted_bytes (filename ct : List Char) (content : Bytes)
    (pdfRender : Option (List Img)) (imgDecode : Option Img)
    (modelOf : Img → Option (List Char)) (jsonLoads : List Char → Option Json)
    (db : List InvoiceLogRow) (now : Nat) :
    (∀ ok, (upload_invoice filename ct content pdfRender imgDecode modelOf
        jsonLoads db now).1 = .ok ok →
      (upload_invoice filename ct content pdfRender imgDecode modelOf
        jsonLoads db now).2 =
        db ++ [⟨Int.ofNat db.length + 1, filename, content,
                dumpInvoiceData ok.data, now⟩]) ∧
    (∀ p rest,
      upload_invoice filename ct content (some (p :: rest)) imgDecode modelOf
        jsonLoads db now =
      upload_invoice filename ct content (some [p]) imgDecode modelOf
        jsonLoads db now) := by
  constructor
  · intro ok hok
    by_cases hfn : filename = []
    · simp [upload_invoice, hfn] at hok
    · simp only [upload_invoice, if_neg hfn] at hok ⊢
      cases hn : normalizeUpload ct pdfRender imgDecode with
      | error e2 => rw [hn] at hok; simp at hok
      | ok img =>
        rw [hn] at hok
        simp only at hok ⊢
        cases hp : process_invoice_with_vllm modelOf jsonLoads img with
        | error e2 => rw [hp] at hok; simp at hok
        | ok d =>
          rw [hp] at hok
          simp only [create_invoice_log] at hok ⊢
          injection hok with hok
          rw [← hok]
  · intro p rest
    unfold upload_invoice normalizeUpload
    by_cases hpdf : occursIn pdfType ct = true
    · simp [hpdf]
    · simp [hpdf]

/-- Claim C7, witness: a concrete successful upload persists the original
bytes, and a concrete two-page render equals its one-page truncation. -/
theorem C7_persisted_bytes_witness :
    (upload_invoice fnA ctImgA contentA none (some imgA) modelOkA jsonLoadsOkA [] 5).2 =
      [] ++ [⟨Int.ofNat ([] : List InvoiceLogRow).length + 1, fnA, contentA,
              dumpInvoiceData (UploadOk.mk 1 cexData).data, 5⟩] ∧
    upload_invoice fnA ctPdfA contentA (some [imgA, imgB]) none modelOkA jsonLoadsOkA [] 5 =
      upload_invoice fnA ctPdfA contentA (some [imgA]) none modelOkA jsonLoadsOkA [] 5 := by
  constructor
  · exact (C7_persisted_bytes fnA ctImgA contentA none (some imgA) modelOkA jsonLoadsOkA
      [] 5).1 (UploadOk.mk 1 cexData) rfl
  · exact (C7_persisted_bytes fnA ctPdfA contentA none none modelOkA jsonLoadsOkA
      [] 5).2 imgA [imgB]

end Invoice
